import Mathlib

/-!
Verification of the FRANZ desktop agent (source files `chuj.py` and `main.py`).

The development shallowly embeds the pure computational core of the program:

* `Coord.to_screen` and `Coord.to_win32` — the coordinate mapper (identical in
  both source files);
* `mouse_click`, `mouse_right_click`, `mouse_double_click`, `mouse_drag`,
  `type_text`, `scroll` — the input-synthesis functions, modelled as the lists
  of input batches they hand to SendInput (one inner list per SendInput call);
* `encode_png` — the from-scratch PNG encoder, parameterised by the external
  zlib compressor and CRC-32 routine (library calls, not code of this
  repository);
* `cycleStep` — one iteration of the orchestrator loop in `main`, modelled as
  a function from the narrative/overlay state and the cycle outcome
  (which fallible external operations fail) to either an uncaught error or the
  new state plus a trace of observable events.

Python float arithmetic is idealised as rational arithmetic; the Python
`int(...)` conversion (truncation toward zero) is `pyTrunc`.
-/

/-- Python `int(q)` on a real value: truncation toward zero. -/
def pyTrunc (q : ℚ) : ℤ := if 0 ≤ q then ⌊q⌋ else ⌈q⌉

theorem pyTrunc_of_nonneg {q : ℚ} (h : 0 ≤ q) : pyTrunc q = ⌊q⌋ := if_pos h

theorem pyTrunc_nonneg {q : ℚ} (h : 0 ≤ q) : 0 ≤ pyTrunc q := by
  rw [pyTrunc_of_nonneg h]
  exact Int.floor_nonneg.mpr h

theorem pyTrunc_le_int {q : ℚ} {n : ℤ} (h0 : 0 ≤ q) (h : q ≤ (n : ℚ)) :
    pyTrunc q ≤ n := by
  rw [pyTrunc_of_nonneg h0]
  exact le_of_le_of_eq (Int.floor_mono h) (Int.floor_intCast n)

theorem pyTrunc_intCast (n : ℤ) : pyTrunc (n : ℚ) = n := by
  unfold pyTrunc
  rcases le_or_lt 0 ((n : ℚ)) with h | h
  · rw [if_pos h, Int.floor_intCast]
  · rw [if_neg (not_le.mpr h), Int.ceil_intCast]

/-- The coordinate mapper: `class Coord` of `chuj.py` (lines 406-421) and
`main.py` (lines 269-284), holding the physical screen size. -/
structure Coord where
  sw : ℤ
  sh : ℤ
  deriving DecidableEq, Repr

/-- `Coord.to_screen` — normalized [0,1000] input scaled to physical pixels:
`int(max(0.0, min(1000.0, x)) * self.sw / 1000)` per axis. -/
def Coord.to_screen (c : Coord) (x y : ℚ) : ℤ × ℤ :=
  (pyTrunc (max 0 (min 1000 x) * (c.sw : ℚ) / 1000),
   pyTrunc (max 0 (min 1000 y) * (c.sh : ℚ) / 1000))

/-- `Coord.to_win32` — physical pixels scaled to the [0,65535] device-absolute
range: `int(x * 65535 / self.sw) if self.sw > 0 else 0` per axis. -/
def Coord.to_win32 (c : Coord) (x y : ℤ) : ℤ × ℤ :=
  (if c.sw > 0 then pyTrunc ((x : ℚ) * 65535 / (c.sw : ℚ)) else 0,
   if c.sh > 0 then pyTrunc ((y : ℚ) * 65535 / (c.sh : ℚ)) else 0)

/-- One atomic synthetic input event, as marshalled into a win32 INPUT record.
`moveAbs` carries MOUSEEVENTF_MOVE|MOUSEEVENTF_ABSOLUTE coordinates; `wheel`
carries the mouseData wheel value (WHEEL_DELTA times the direction, as the
signed value computed by the Python source before marshalling). -/
inductive InputEvt
  | moveAbs (dx dy : ℤ)
  | leftDown
  | leftUp
  | rightDown
  | rightUp
  | wheel (mouseData : ℤ)
  | keyDown (code : ℕ)
  | keyUp (code : ℕ)
  deriving DecidableEq, Repr

/-- `mouse_click` (chuj.py 430-457, main.py 293-320): one SendInput batch of
move-absolute, left-down, left-up. One inner list per SendInput call. -/
def mouse_click (x y : ℤ) (conv : Coord) : List (List InputEvt) :=
  let a := conv.to_win32 x y
  [[InputEvt.moveAbs a.1 a.2, InputEvt.leftDown, InputEvt.leftUp]]

/-- `mouse_right_click` (chuj.py 459-487): move-absolute, right-down, right-up
in one batch. -/
def mouse_right_click (x y : ℤ) (conv : Coord) : List (List InputEvt) :=
  let a := conv.to_win32 x y
  [[InputEvt.moveAbs a.1 a.2, InputEvt.rightDown, InputEvt.rightUp]]

/-- `mouse_double_click` (chuj.py 489-521): a full click batch, then a second
down/up batch without re-moving. -/
def mouse_double_click (x y : ℤ) (conv : Coord) : List (List InputEvt) :=
  let a := conv.to_win32 x y
  [[InputEvt.moveAbs a.1 a.2, InputEvt.leftDown, InputEvt.leftUp],
   [InputEvt.leftDown, InputEvt.leftUp]]

/-- `mouse_drag` (chuj.py 523-575): move+down batch, ten interpolated single
move batches with `t = i / 10` for `i` in 1..10 and `int` truncation, then an
up batch. -/
def mouse_drag (x1 y1 x2 y2 : ℤ) (conv : Coord) : List (List InputEvt) :=
  let a := conv.to_win32 x1 y1
  let b := conv.to_win32 x2 y2
  [[InputEvt.moveAbs a.1 a.2, InputEvt.leftDown]] ++
    (List.range 10).map (fun i =>
      let t : ℚ := ((i : ℚ) + 1) / 10
      [InputEvt.moveAbs (pyTrunc ((a.1 : ℚ) + ((b.1 : ℚ) - (a.1 : ℚ)) * t))
                        (pyTrunc ((a.2 : ℚ) + ((b.2 : ℚ) - (a.2 : ℚ)) * t))]) ++
    [[InputEvt.leftUp]]

/-- UTF-16 code units of a string, as produced by `text.encode("utf-16le")`
read two bytes at a time. -/
def utf16Units (s : String) : List ℕ :=
  s.data.flatMap (fun c =>
    let n := c.toNat
    if n < 65536 then [n]
    else [55296 + (n - 65536) / 1024, 56320 + (n - 65536) % 1024])

/-- `type_text` (chuj.py 577-604, main.py 322-349): key-down/key-up pair per
UTF-16 code unit, all in one SendInput batch; the empty string sends nothing. -/
def type_text (text : String) : List (List InputEvt) :=
  if text = "" then []
  else [(utf16Units text).flatMap (fun code => [InputEvt.keyDown code, InputEvt.keyUp code])]

/-- `scroll` (chuj.py 606-621, main.py 351-366): the single SendInput batch of
wheel events, `ticks = max(1, int(abs(dy) / WHEEL_DELTA))` many, each with
mouseData `WHEEL_DELTA * direction` where `direction = 1 if dy > 0 else -1`. -/
def scroll (dy : ℚ) : List InputEvt :=
  let ticks := (max 1 (pyTrunc (|dy| / 120))).toNat
  let direction : ℤ := if dy > 0 then 1 else -1
  List.replicate ticks (InputEvt.wheel (120 * direction))

/-- Big-endian 4-byte encoding, as `struct.pack(">I", n)` produces for values
below 2^32 (each entry is one byte value). -/
def be32 (n : ℕ) : List ℕ :=
  [n / 16777216 % 256, n / 65536 % 256, n / 256 % 256, n % 256]

/-- The inner `chunk` helper of `encode_png` (chuj.py 697-700, main.py
443-446): 4-byte big-endian payload length, 4-byte tag, payload, 4-byte
big-endian CRC-32 over tag+payload (`zlib.crc32(tag + data) & 0xFFFFFFFF`).
The CRC-32 routine is a zlib library call, passed in as a parameter. -/
def pngChunk (crc : List ℕ → ℕ) (tag data : List ℕ) : List ℕ :=
  be32 data.length ++ tag ++ data ++ be32 (crc (tag ++ data) % 4294967296)

/-- The IHDR payload `struct.pack(">2I5B", width, height, 8, 2, 0, 0, 0)`:
bit depth 8, color type 2 (truecolor), compression 0, filter 0, interlace 0. -/
def ihdrData (width height : ℕ) : List ℕ :=
  be32 width ++ be32 height ++ [8, 2, 0, 0, 0]

/-- One scanline of the pre-compression stream built by the `encode_png` row
loop: filter-type byte 0, then for each pixel the bytes at offsets +2, +1, +0
of the 4-byte BGRA pixel (i.e. R, G, B, dropping A). Indexing follows
`row = bgra[y*width*4 : ...]; row[x*4+2], row[x*4+1], row[x*4]`. -/
def pngRow (bgra : List ℕ) (width y : ℕ) : List ℕ :=
  0 :: (List.range width).flatMap (fun x =>
    [bgra.getD (y * width * 4 + x * 4 + 2) 0,
     bgra.getD (y * width * 4 + x * 4 + 1) 0,
     bgra.getD (y * width * 4 + x * 4) 0])

/-- The full pre-compression stream `raw` of `encode_png`: the scanlines of
all `height` rows in order. -/
def pngRaw (bgra : List ℕ) (width height : ℕ) : List ℕ :=
  (List.range height).flatMap (pngRow bgra width)

/-- The 8-byte PNG signature `b"\x89PNG\r\n\x1a\n"`. -/
def pngSignature : List ℕ := [137, 80, 78, 71, 13, 10, 26, 10]

/-- `encode_png` (chuj.py 680-702, main.py 426-448), parameterised by the
zlib deflate compressor and CRC-32 routine (external library calls):
signature, then IHDR, IDAT (compressed raw stream) and IEND chunks. -/
def encode_png (compress : List ℕ → List ℕ) (crc : List ℕ → ℕ)
    (bgra : List ℕ) (width height : ℕ) : List ℕ :=
  pngSignature
    ++ pngChunk crc [73, 72, 68, 82] (ihdrData width height)
    ++ pngChunk crc [73, 68, 65, 84] (compress (pngRaw bgra width height))
    ++ pngChunk crc [73, 69, 78, 68] []

/-- Arguments of one inference tool call, after `float(...)`/`str(...)`
coercion; a `none` field models a key absent from the returned JSON object
(reading it raises KeyError inside the try block). -/
structure VlmArgs where
  story : Option String := none
  x : Option ℚ := none
  y : Option ℚ := none
  x1 : Option ℚ := none
  y1 : Option ℚ := none
  x2 : Option ℚ := none
  y2 : Option ℚ := none
  dy : Option ℚ := none
  text : Option String := none
  deriving DecidableEq, Repr

/-- The mutable state the orchestrator carries across cycles: the
authoritative narrative string (`current_story`) and the text currently shown
by the HUD overlay window. -/
structure AgentState where
  narrative : String
  overlay : String
  deriving DecidableEq, Repr

/-- An error that escapes the orchestrator loop body uncaught: the capture /
downsample / encode / archive-write stages run before the `try` block, so a
failure there propagates out of `main`. -/
inductive CycleErr
  | capture
  | archive
  deriving DecidableEq, Repr

/-- Observable events of one cycle: the HUD text update, each SendInput batch,
the `print` in the `except` handler, and the 2-second backoff sleep. -/
inductive Event
  | overlayUpdate (s : String)
  | inject (batch : List InputEvt)
  | logError
  | backoff
  deriving DecidableEq, Repr

/-- The outcome of the fallible external operations of one cycle:
whether screen capture raises, whether the archive write raises, the
inference-service result (error = network/protocol/schema failure raised by
`call_vlm`), and whether SendInput rejects the injection. -/
structure CycleOutcome where
  captureErr : Bool
  archiveErr : Bool
  vlm : Except Unit (String × VlmArgs)
  injectErr : Bool

/-- The action-dispatch chain of the orchestrator loop (chuj.py 860-884):
which SendInput batches the returned tool name and arguments produce.
`Except.error` models a KeyError raised while reading a required argument
(caught by the surrounding try). Tool names outside the dispatch chain fall
through with no injection, as does `observe`. -/
def actOf (conv : Coord) (tool : String) (a : VlmArgs) :
    Except Unit (List (List InputEvt)) :=
  if tool = "click" then
    match a.x, a.y with
    | some x, some y =>
      let p := conv.to_screen x y
      Except.ok (mouse_click p.1 p.2 conv)
    | _, _ => Except.error ()
  else if tool = "right_click" then
    match a.x, a.y with
    | some x, some y =>
      let p := conv.to_screen x y
      Except.ok (mouse_right_click p.1 p.2 conv)
    | _, _ => Except.error ()
  else if tool = "double_click" then
    match a.x, a.y with
    | some x, some y =>
      let p := conv.to_screen x y
      Except.ok (mouse_double_click p.1 p.2 conv)
    | _, _ => Except.error ()
  else if tool = "drag" then
    match a.x1, a.y1, a.x2, a.y2 with
    | some x1, some y1, some x2, some y2 =>
      let p := conv.to_screen x1 y1
      let q := conv.to_screen x2 y2
      Except.ok (mouse_drag p.1 p.2 q.1 q.2 conv)
    | _, _, _, _ => Except.error ()
  else if tool = "type" then
    match a.text with
    | some t => Except.ok (type_text t)
    | none => Except.error ()
  else if tool = "scroll" then
    match a.dy with
    | some d => Except.ok [scroll d]
    | none => Except.error ()
  else Except.ok []

/-- One iteration of the orchestrator loop body (chuj.py 839-888).
Capture, downsample, encode and the archive write run before the `try`
block: a failure there escapes as `Except.error`. Inside the try, an
inference failure is caught before the narrative is touched; on success the
narrative is replaced and the overlay updated before dispatch, so a dispatch
or injection failure is caught after the state change. Every caught error is
logged and followed by the 2-second backoff sleep. -/
def cycleStep (conv : Coord) (st : AgentState) (o : CycleOutcome) :
    Except CycleErr (AgentState × List Event) :=
  if o.captureErr then Except.error CycleErr.capture
  else if o.archiveErr then Except.error CycleErr.archive
  else
    match o.vlm with
    | Except.error _ => Except.ok (st, [Event.logError, Event.backoff])
    | Except.ok (tool, args) =>
      let story := args.story.getD st.narrative
      let st1 : AgentState := ⟨story, story⟩
      match actOf conv tool args with
      | Except.error _ =>
        Except.ok (st1, [Event.overlayUpdate story, Event.logError, Event.backoff])
      | Except.ok batches =>
        if o.injectErr && !batches.isEmpty then
          Except.ok (st1, [Event.overlayUpdate story, Event.logError, Event.backoff])
        else
          Except.ok (st1, Event.overlayUpdate story :: batches.map Event.inject)

/-- Run a sequence of cycles, accumulating the event trace, stopping at the
first uncaught error (which terminates the process). -/
def runCycles (conv : Coord) : AgentState → List CycleOutcome →
    Except CycleErr (AgentState × List Event)
  | st, [] => Except.ok (st, [])
  | st, o :: rest =>
    match cycleStep conv st o with
    | Except.error e => Except.error e
    | Except.ok (st1, tr) =>
      match runCycles conv st1 rest with
      | Except.error e => Except.error e
      | Except.ok (st2, tr2) => Except.ok (st2, tr ++ tr2)

/-- Whether the body of the `try` block raises on this cycle outcome: the
inference call fails, a required argument is missing, or SendInput rejects an
injection the dispatched action actually attempts. -/
def tryRaises (conv : Coord) (o : CycleOutcome) : Bool :=
  match o.vlm with
  | Except.error _ => true
  | Except.ok (tool, args) =>
    match actOf conv tool args with
    | Except.error _ => true
    | Except.ok batches => o.injectErr && !batches.isEmpty

/-- The tool names the orchestrator dispatch chain recognises. -/
def knownTools : List String :=
  ["click", "right_click", "double_click", "drag", "type", "scroll", "observe"]

theorem clamp_bounds (x : ℚ) : 0 ≤ max 0 (min 1000 x) ∧ max 0 (min 1000 x) ≤ 1000 :=
  ⟨le_max_left _ _, max_le (by norm_num) (min_le_left _ _)⟩

theorem to_screen_axis_bounds (sw : ℤ) (x : ℚ) (hw : 0 ≤ sw) :
    0 ≤ pyTrunc (max 0 (min 1000 x) * (sw : ℚ) / 1000) ∧
    pyTrunc (max 0 (min 1000 x) * (sw : ℚ) / 1000) ≤ sw := by
  have hc := clamp_bounds x
  have hswq : (0 : ℚ) ≤ (sw : ℚ) := by exact_mod_cast hw
  have h0 : 0 ≤ max 0 (min 1000 x) * (sw : ℚ) / 1000 :=
    div_nonneg (mul_nonneg hc.1 hswq) (by norm_num)
  refine ⟨pyTrunc_nonneg h0, pyTrunc_le_int h0 ?_⟩
  rw [div_le_iff₀ (by norm_num : (0 : ℚ) < 1000)]
  calc max 0 (min 1000 x) * (sw : ℚ) ≤ 1000 * (sw : ℚ) :=
        mul_le_mul_of_nonneg_right hc.2 hswq
    _ = (sw : ℚ) * 1000 := mul_comm _ _

theorem to_screen_axis_attained (sw : ℤ) (x : ℚ) (hx : 1000 ≤ x) :
    pyTrunc (max 0 (min 1000 x) * (sw : ℚ) / 1000) = sw := by
  rw [min_eq_left hx, max_eq_right (by norm_num : (0 : ℚ) ≤ 1000),
    mul_div_cancel_left₀ _ (by norm_num : (1000 : ℚ) ≠ 0), pyTrunc_intCast]

/-- C4 counterexample: on a 1000×800 display, the input (1000, 1000) is mapped
to (1000, 800) — the first coordinate equals the width, so the claimed
half-open bound `px < width` fails. -/
theorem to_screen_upper_bound_attained_cex :
    Coord.to_screen ⟨1000, 800⟩ 1000 1000 = (1000, 800) ∧ ¬((1000 : ℤ) < 1000) := by
  constructor
  · unfold Coord.to_screen
    rw [Prod.mk.injEq]
    exact ⟨to_screen_axis_attained 1000 1000 le_rfl, to_screen_axis_attained 800 1000 le_rfl⟩
  · omega

/-- C4 (amended): for positive screen dimensions, `to_screen` clamps each
coordinate into [0,1000] and scales linearly so that the returned integers
satisfy 0 ≤ px ≤ width and 0 ≤ py ≤ height (closed upper bound; the value
width itself is attained at clamped coordinate 1000). -/
theorem to_screen_range (c : Coord) (x y : ℚ) (hw : 0 < c.sw) (hh : 0 < c.sh) :
    0 ≤ (c.to_screen x y).1 ∧ (c.to_screen x y).1 ≤ c.sw ∧
    0 ≤ (c.to_screen x y).2 ∧ (c.to_screen x y).2 ≤ c.sh := by
  have h1 := to_screen_axis_bounds c.sw x hw.le
  have h2 := to_screen_axis_bounds c.sh y hh.le
  exact ⟨h1.1, h1.2, h2.1, h2.2⟩

theorem to_screen_range_witness :
    0 < ((⟨1536, 864⟩ : Coord)).sw ∧ 0 < ((⟨1536, 864⟩ : Coord)).sh ∧
    (0 ≤ ((⟨1536, 864⟩ : Coord).to_screen 500 250).1 ∧
     ((⟨1536, 864⟩ : Coord).to_screen 500 250).1 ≤ ((⟨1536, 864⟩ : Coord)).sw ∧
     0 ≤ ((⟨1536, 864⟩ : Coord).to_screen 500 250).2 ∧
     ((⟨1536, 864⟩ : Coord).to_screen 500 250).2 ≤ ((⟨1536, 864⟩ : Coord)).sh) :=
  ⟨by decide, by decide, to_screen_range ⟨1536, 864⟩ 500 250 (by decide) (by decide)⟩

/-- C9: for non-negative screen dimensions, `to_screen` returns integers in
the closed intervals [0, width] and [0, height], and the upper bound is
attained: an input coordinate that clamps to 1000 maps exactly to the stored
dimension. -/
theorem to_screen_closed_range (c : Coord) (x y : ℚ) (hw : 0 ≤ c.sw) (hh : 0 ≤ c.sh) :
    (0 ≤ (c.to_screen x y).1 ∧ (c.to_screen x y).1 ≤ c.sw ∧
     0 ≤ (c.to_screen x y).2 ∧ (c.to_screen x y).2 ≤ c.sh) ∧
    (1000 ≤ x → (c.to_screen x y).1 = c.sw) ∧
    (1000 ≤ y → (c.to_screen x y).2 = c.sh) := by
  have h1 := to_screen_axis_bounds c.sw x hw
  have h2 := to_screen_axis_bounds c.sh y hh
  exact ⟨⟨h1.1, h1.2, h2.1, h2.2⟩,
    fun hx => to_screen_axis_attained c.sw x hx,
    fun hy => to_screen_axis_attained c.sh y hy⟩

theorem to_screen_closed_range_witness :
    0 ≤ ((⟨1000, 800⟩ : Coord)).sw ∧ (1000 : ℚ) ≤ 1200 ∧
    ((⟨1000, 800⟩ : Coord).to_screen 1200 300).1 = ((⟨1000, 800⟩ : Coord)).sw :=
  ⟨by decide, by norm_num,
    (to_screen_closed_range ⟨1000, 800⟩ 1200 300 (by decide) (by decide)).2.1 (by norm_num)⟩

/-- C3 counterexample: with width 0 (non-positive) but height 800, the point
(100, 400) maps to (0, 32767), not to (0, 0) — the guard is per-axis, so the
claimed result (0,0) for "either dimension non-positive" is false. -/
theorem to_win32_degenerate_cex :
    Coord.to_win32 ⟨0, 800⟩ 100 400 = (0, 32767) ∧
    ((0 : ℤ), (32767 : ℤ)) ≠ ((0 : ℤ), (0 : ℤ)) := by
  constructor
  · unfold Coord.to_win32
    norm_num [pyTrunc]
  · simp

/-- C3 (amended): the degenerate-display guard is applied independently per
axis: a non-positive width zeroes only the first returned coordinate, a
non-positive height only the second, and (0,0) is returned when both
dimensions are non-positive. -/
theorem to_win32_per_axis_guard (c : Coord) (x y : ℤ) :
    (c.sw ≤ 0 → (c.to_win32 x y).1 = 0) ∧
    (c.sh ≤ 0 → (c.to_win32 x y).2 = 0) ∧
    (c.sw ≤ 0 → c.sh ≤ 0 → c.to_win32 x y = (0, 0)) := by
  refine ⟨fun h => ?_, fun h => ?_, fun h1 h2 => ?_⟩
  · simp [Coord.to_win32, not_lt.mpr h]
  · simp [Coord.to_win32, not_lt.mpr h]
  · simp [Coord.to_win32, not_lt.mpr h1, not_lt.mpr h2]

theorem to_win32_per_axis_guard_witness :
    ((0 : ℤ) ≤ 0 ∧ (-3 : ℤ) ≤ 0 ∧ Coord.to_win32 ⟨0, -3⟩ 7 9 = (0, 0)) ∧
    ((Coord.to_win32 ⟨0, 800⟩ 7 9).1 = 0) :=
  ⟨⟨by decide, by decide, (to_win32_per_axis_guard ⟨0, -3⟩ 7 9).2.2 (by decide) (by decide)⟩,
    (to_win32_per_axis_guard ⟨0, 800⟩ 7 9).1 (by decide)⟩

/-- C2 counterexample: at dy = 180 the code emits 1 wheel event
(`int` truncates 1.5 to 1) while the claimed formula `max(1, round(180/120))`
gives 2. -/
theorem scroll_truncates_not_rounds_cex :
    (scroll 180).length = 1 ∧ (max 1 (round (|(180 : ℚ)| / 120))).toNat = 2 ∧
    (1 : ℕ) ≠ 2 := by
  refine ⟨?_, ?_, by decide⟩
  · have h : (max 1 (pyTrunc ((180 : ℚ) / 120))).toNat = 1 := by
      norm_num [pyTrunc, Int.toNat_one]
    simp [scroll, h]
  · rw [round_eq]
    norm_num
    decide

/-- C2 (amended): `scroll(dy)` emits exactly `max(1, floor(|dy| / 120))`
wheel-tick events (Python `int` truncation, not rounding), each with wheel
delta +120 when dy > 0 and −120 otherwise; in particular scroll(0) emits
exactly 1 tick, scroll(240) exactly 2 ticks in the positive direction, and
scroll(-360) exactly 3 ticks in the negative direction. -/
theorem scroll_tick_count (dy : ℚ) :
    scroll dy = List.replicate (max 1 ⌊|dy| / 120⌋).toNat
        (InputEvt.wheel (if dy > 0 then 120 else -120)) ∧
    (scroll 0).length = 1 ∧
    scroll 240 = List.replicate 2 (InputEvt.wheel 120) ∧
    scroll (-360) = List.replicate 3 (InputEvt.wheel (-120)) := by
  refine ⟨?_, ?_, ?_, ?_⟩
  · unfold scroll
    rw [pyTrunc_of_nonneg (div_nonneg (abs_nonneg dy) (by norm_num))]
    by_cases h : dy > 0
    · simp [h]
    · simp [h]
  · have h : (max 1 (pyTrunc ((0 : ℚ)))).toNat = 1 := by norm_num [pyTrunc, Int.toNat_one]
    simp [scroll, h]
  · have h : (max 1 (pyTrunc ((240 : ℚ) / 120))).toNat = 2 := by
      norm_num [pyTrunc]
      decide
    have hd : ((240 : ℚ) > 0) := by norm_num
    simp [scroll, h, hd]
  · have h : (max 1 (pyTrunc ((360 : ℚ) / 120))).toNat = 3 := by
      norm_num [pyTrunc]
      decide
    have hd : ¬((-360 : ℚ) > 0) := by norm_num
    simp [scroll, h, hd]

theorem scroll_tick_count_witness :
    scroll 7 = List.replicate (max 1 ⌊|(7 : ℚ)| / 120⌋).toNat
      (InputEvt.wheel (if (7 : ℚ) > 0 then 120 else -120)) :=
  (scroll_tick_count 7).1

/-- C10: `scroll(0)` emits exactly one wheel event with wheel data −120 (the
negative direction), and for every dy ≤ 0 the chosen direction is −1, since
only strictly positive dy selects the positive direction. -/
theorem scroll_zero_negative (dy : ℚ) (h : dy ≤ 0) :
    scroll 0 = [InputEvt.wheel (-120)] ∧
    scroll dy = List.replicate (max 1 (pyTrunc (|dy| / 120))).toNat
        (InputEvt.wheel (-120)) := by
  constructor
  · have ht : (max 1 (pyTrunc ((0 : ℚ)))).toNat = 1 := by norm_num [pyTrunc, Int.toNat_one]
    have hd : ¬((0 : ℚ) > 0) := by norm_num
    simp [scroll, ht, hd]
  · unfold scroll
    rw [if_neg (not_lt.mpr h)]
    norm_num

theorem scroll_zero_negative_witness :
    (-240 : ℚ) ≤ 0 ∧
    scroll (-240) = List.replicate (max 1 (pyTrunc (|(-240 : ℚ)| / 120))).toNat
      (InputEvt.wheel (-120)) :=
  ⟨by norm_num, (scroll_zero_negative (-240) (by norm_num)).2⟩

/-- C6: when the inference service returns a tool name outside the known
action set (and a story field), the cycle performs no input synthesis,
replaces the authoritative narrative with the returned story, updates the
overlay to the same text, and returns normally so the unbounded loop
continues — even if injection would have failed. -/
theorem unknown_tool_pure_observation (conv : Coord) (st : AgentState)
    (o : CycleOutcome) (tool : String) (args : VlmArgs) (s : String)
    (hc : o.captureErr = false) (ha : o.archiveErr = false)
    (hv : o.vlm = Except.ok (tool, args)) (hs : args.story = some s)
    (ht : tool ∉ knownTools) :
    cycleStep conv st o = Except.ok (⟨s, s⟩, [Event.overlayUpdate s]) := by
  simp only [knownTools, List.mem_cons, List.not_mem_nil, or_false, not_or] at ht
  obtain ⟨h1, h2, h3, h4, h5, h6, h7⟩ := ht
  simp [cycleStep, actOf, hc, ha, hv, hs, h1, h2, h3, h4, h5, h6, h7]

theorem unknown_tool_pure_observation_witness :
    ("meditate" : String) ∉ knownTools ∧
    cycleStep ⟨1536, 864⟩ ⟨"a", "b"⟩
      ⟨false, false, Except.ok ("meditate", { story := some "w" }), true⟩ =
      Except.ok (⟨"w", "w"⟩, [Event.overlayUpdate "w"]) :=
  ⟨by decide,
    unknown_tool_pure_observation ⟨1536, 864⟩ ⟨"a", "b"⟩
      ⟨false, false, Except.ok ("meditate", { story := some "w" }), true⟩
      "meditate" { story := some "w" } "w" rfl rfl rfl rfl (by decide)⟩

/-- C7: if the inference call of a cycle raises, the narrative and overlay
keep exactly the values they had before the cycle (the state is returned
unchanged, the only events being the error log and the backoff sleep), and
running any continuation from that point behaves exactly as if itself started
from the unchanged state. -/
theorem inference_error_isolated (conv : Coord) (st : AgentState)
    (o : CycleOutcome) (hc : o.captureErr = false) (ha : o.archiveErr = false)
    (hv : o.vlm = Except.error ()) :
    cycleStep conv st o = Except.ok (st, [Event.logError, Event.backoff]) ∧
    ∀ rest, runCycles conv st (o :: rest) =
      Except.map (fun p => (p.1, Event.logError :: Event.backoff :: p.2))
        (runCycles conv st rest) := by
  have hstep : cycleStep conv st o = Except.ok (st, [Event.logError, Event.backoff]) := by
    simp [cycleStep, hc, ha, hv]
  refine ⟨hstep, fun rest => ?_⟩
  simp only [runCycles, hstep]
  cases hr : runCycles conv st rest with
  | error e => simp [Except.map]
  | ok p => simp [Except.map]

theorem inference_error_isolated_witness :
    cycleStep ⟨1536, 864⟩ ⟨"n", "n"⟩ ⟨false, false, Except.error (), false⟩ =
      Except.ok (⟨"n", "n"⟩, [Event.logError, Event.backoff]) ∧
    runCycles ⟨1536, 864⟩ ⟨"n", "n"⟩
        [⟨false, false, Except.error (), false⟩,
         ⟨false, false, Except.ok ("observe", { story := some "t" }), false⟩] =
      Except.map (fun p => (p.1, Event.logError :: Event.backoff :: p.2))
        (runCycles ⟨1536, 864⟩ ⟨"n", "n"⟩
          [⟨false, false, Except.ok ("observe", { story := some "t" }), false⟩]) :=
  ⟨(inference_error_isolated ⟨1536, 864⟩ ⟨"n", "n"⟩ _ rfl rfl rfl).1,
    (inference_error_isolated ⟨1536, 864⟩ ⟨"n", "n"⟩ _ rfl rfl rfl).2 _⟩

/-- C1 counterexample: a cycle whose screen capture raises produces an
uncaught error — the loop body terminates with `Except.error`, so the claimed
catch-all at the orchestrator boundary does not exist for the capture /
downsample / encode / archive-write stages, which run before the try block. -/
theorem capture_error_escapes_loop :
    cycleStep ⟨1536, 864⟩ ⟨"a", "a"⟩ ⟨true, false, Except.error (), false⟩ =
      Except.error CycleErr.capture ∧
    (cycleStep ⟨1536, 864⟩ ⟨"a", "a"⟩ ⟨true, false, Except.error (), false⟩).isOk
      = false :=
  ⟨rfl, rfl⟩

/-- C1 (amended): every error raised inside the per-cycle try block — the
inference call, argument extraction, and input injection — is caught at the
orchestrator boundary, logged, and followed by the backoff delay, and such a
cycle returns normally; but errors from the capture, downsample, encode and
archive-write stages, which run before the try block, propagate uncaught and
terminate the loop (only a KeyboardInterrupt is handled outside it). -/
theorem try_block_errors_contained (conv : Coord) (st : AgentState)
    (o : CycleOutcome) (hc : o.captureErr = false) (ha : o.archiveErr = false) :
    ∃ st2 tr, cycleStep conv st o = Except.ok (st2, tr) ∧
      (tryRaises conv o = true → ∃ pre, tr = pre ++ [Event.logError, Event.backoff]) := by
  rcases hv : o.vlm with e | ta
  · refine ⟨st, [Event.logError, Event.backoff], ?_, fun _ => ⟨[], rfl⟩⟩
    simp [cycleStep, hc, ha, hv]
  · obtain ⟨tool, args⟩ := ta
    rcases hA : actOf conv tool args with e2 | batches
    · refine ⟨⟨args.story.getD st.narrative, args.story.getD st.narrative⟩,
        [Event.overlayUpdate (args.story.getD st.narrative), Event.logError, Event.backoff],
        ?_, fun _ => ⟨[Event.overlayUpdate (args.story.getD st.narrative)], rfl⟩⟩
      simp [cycleStep, hc, ha, hv, hA]
    · by_cases hi : (o.injectErr && !batches.isEmpty) = true
      · refine ⟨⟨args.story.getD st.narrative, args.story.getD st.narrative⟩,
          [Event.overlayUpdate (args.story.getD st.narrative), Event.logError, Event.backoff],
          ?_, fun _ => ⟨[Event.overlayUpdate (args.story.getD st.narrative)], rfl⟩⟩
        simp [cycleStep, hc, ha, hv, hA, hi]
      · refine ⟨⟨args.story.getD st.narrative, args.story.getD st.narrative⟩,
          Event.overlayUpdate (args.story.getD st.narrative) ::
            batches.map Event.inject,
          ?_, fun hT => absurd hT ?_⟩
        · simp [cycleStep, hc, ha, hv, hA, hi]
        · simp only [tryRaises, hv, hA]
          exact hi

theorem try_block_errors_contained_witness :
    (⟨false, false, Except.error (), true⟩ : CycleOutcome).captureErr = false ∧
    (⟨false, false, Except.error (), true⟩ : CycleOutcome).archiveErr = false ∧
    ∃ st2 tr,
      cycleStep ⟨1536, 864⟩ ⟨"a", "a"⟩ ⟨false, false, Except.error (), true⟩ =
        Except.ok (st2, tr) ∧
      (tryRaises ⟨1536, 864⟩ ⟨false, false, Except.error (), true⟩ = true →
        ∃ pre, tr = pre ++ [Event.logError, Event.backoff]) :=
  ⟨rfl, rfl, try_block_errors_contained ⟨1536, 864⟩ ⟨"a", "a"⟩ _ rfl rfl⟩

theorem to_screen_1000x800_center :
    Coord.to_screen ⟨1000, 800⟩ 500 500 = (500, 400) := by
  unfold Coord.to_screen
  rw [Prod.mk.injEq]
  constructor
  · norm_num [pyTrunc, min_def, max_def]
  · norm_num [pyTrunc, min_def, max_def]

theorem to_win32_1000x800_center :
    Coord.to_win32 ⟨1000, 800⟩ 500 400 = (32767, 32767) := by
  unfold Coord.to_win32
  norm_num [pyTrunc]

/-- C5 counterexample: the cycle receiving `click` at (500,500) on a 1000×800
display injects exactly one move+down+up batch, but its absolute-move event
targets (32767, 32767) — the claimed y-coordinate 53738 is off by 20971,
far outside any rounding tolerance. -/
theorem cycle_click_center_cex :
    cycleStep ⟨1000, 800⟩ ⟨"a", "a"⟩
      ⟨false, false,
        Except.ok ("click", { story := some "s", x := some 500, y := some 500 }),
        false⟩ =
      Except.ok (⟨"s", "s"⟩,
        [Event.overlayUpdate "s",
         Event.inject [InputEvt.moveAbs 32767 32767, InputEvt.leftDown, InputEvt.leftUp]]) ∧
    (53738 : ℤ) - 32767 = 20971 ∧ ¬((20971 : ℤ) ≤ 2) := by
  refine ⟨?_, by decide, by decide⟩
  simp [cycleStep, actOf, mouse_click, to_screen_1000x800_center, to_win32_1000x800_center]

/-- C5 (amended): an orchestrator cycle that receives action `click` with
normalized point (500,500) on a 1000×800 physical display synthesizes exactly
one move+down+up input batch whose absolute-move event targets device-absolute
coordinates (32767, 32767) — the midpoint of the device-absolute range on both
axes, since the mapping composes normalized→physical and physical→device
proportional scalings. -/
theorem cycle_click_center (st : AgentState) (s : String) :
    cycleStep ⟨1000, 800⟩ st
      ⟨false, false,
        Except.ok ("click", { story := some s, x := some 500, y := some 500 }),
        false⟩ =
      Except.ok (⟨s, s⟩,
        [Event.overlayUpdate s,
         Event.inject [InputEvt.moveAbs 32767 32767, InputEvt.leftDown, InputEvt.leftUp]]) := by
  simp [cycleStep, actOf, mouse_click, to_screen_1000x800_center, to_win32_1000x800_center]

theorem length_flatMap_range_const {α : Type} (f : ℕ → List α) (L : ℕ)
    (hL : ∀ i, (f i).length = L) (n : ℕ) :
    ((List.range n).flatMap f).length = n * L := by
  induction n with
  | zero => simp
  | succ k ih =>
    rw [List.range_succ, List.flatMap_append]
    simp [ih, hL, Nat.succ_mul]

theorem getD_flatMap_range_const {α : Type} (f : ℕ → List α) (L : ℕ) (d : α)
    (hL : ∀ i, (f i).length = L) :
    ∀ n y j, y < n → j < L →
      ((List.range n).flatMap f).getD (y * L + j) d = (f y).getD j d := by
  intro n
  induction n with
  | zero => exact fun y j hy _ => absurd hy (Nat.not_lt_zero y)
  | succ k ih =>
    intro y j hy hj
    rw [List.range_succ, List.flatMap_append]
    rcases Nat.lt_succ_iff_lt_or_eq.mp hy with h | h
    · rw [List.getD_append]
      · exact ih y j h hj
      · rw [length_flatMap_range_const f L hL k]
        calc y * L + j < y * L + L := Nat.add_lt_add_left hj _
          _ = (y + 1) * L := (Nat.succ_mul y L).symm
          _ ≤ k * L := Nat.mul_le_mul_right L h
    · subst h
      rw [List.getD_append_right]
      · rw [length_flatMap_range_const f L hL y]
        simp
      · rw [length_flatMap_range_const f L hL y]
        omega

theorem pngRow_length (bgra : List ℕ) (width y : ℕ) :
    (pngRow bgra width y).length = 3 * width + 1 := by
  have h := length_flatMap_range_const
    (fun x => [bgra.getD (y * width * 4 + x * 4 + 2) 0,
               bgra.getD (y * width * 4 + x * 4 + 1) 0,
               bgra.getD (y * width * 4 + x * 4) 0]) 3
    (fun i => rfl) width
  unfold pngRow
  rw [List.length_cons, h]
  omega

theorem pngRaw_filter_byte (bgra : List ℕ) (width height y : ℕ) (hy : y < height) :
    (pngRaw bgra width height).getD (y * (3 * width + 1)) 1 = 0 := by
  have h := getD_flatMap_range_const (pngRow bgra width) (3 * width + 1) 1
    (fun i => pngRow_length bgra width i) height y 0 hy (by omega)
  rw [Nat.add_zero] at h
  rw [pngRaw, h]
  rfl

theorem pngRaw_pixel (bgra : List ℕ) (width height y x k : ℕ)
    (hy : y < height) (hx : x < width) (hk : k < 3) :
    (pngRaw bgra width height).getD (y * (3 * width + 1) + (1 + (3 * x + k))) 0 =
      [bgra.getD (y * width * 4 + x * 4 + 2) 0,
       bgra.getD (y * width * 4 + x * 4 + 1) 0,
       bgra.getD (y * width * 4 + x * 4) 0].getD k 0 := by
  rw [pngRaw, getD_flatMap_range_const (pngRow bgra width) (3 * width + 1) 0
    (fun i => pngRow_length bgra width i) height y (1 + (3 * x + k)) hy (by omega)]
  unfold pngRow
  rw [show (1 + (3 * x + k)) = (x * 3 + k) + 1 from by omega, List.getD_cons_succ]
  exact getD_flatMap_range_const
    (fun x => [bgra.getD (y * width * 4 + x * 4 + 2) 0,
               bgra.getD (y * width * 4 + x * 4 + 1) 0,
               bgra.getD (y * width * 4 + x * 4) 0]) 3 0
    (fun i => rfl) width x k hx hk

/-- C8: for every width×height BGRA frame, the encoder output is the 8-byte
PNG signature followed by exactly three chunks (IHDR, IDAT, IEND), each framed
as a 4-byte big-endian payload length, the 4-byte ASCII tag, the payload, and
a 4-byte CRC-32 over tag+payload; in the pre-compression stream every scanline
starts with filter-type byte 0, and the pixel bytes at offsets 1+3x, 1+3x+1,
1+3x+2 of scanline y are the source bytes at BGRA offsets +2, +1, +0 — i.e.
the channels are reordered from (B,G,R,A) to R,G,B with alpha dropped. -/
theorem encode_png_structure (compress : List ℕ → List ℕ) (crc : List ℕ → ℕ)
    (bgra : List ℕ) (width height y x : ℕ) (hy : y < height) (hx : x < width) :
    encode_png compress crc bgra width height =
      [137, 80, 78, 71, 13, 10, 26, 10]
        ++ (be32 (ihdrData width height).length ++ [73, 72, 68, 82]
            ++ ihdrData width height
            ++ be32 (crc ([73, 72, 68, 82] ++ ihdrData width height) % 4294967296))
        ++ (be32 (compress (pngRaw bgra width height)).length ++ [73, 68, 65, 84]
            ++ compress (pngRaw bgra width height)
            ++ be32 (crc ([73, 68, 65, 84] ++ compress (pngRaw bgra width height)) % 4294967296))
        ++ (be32 0 ++ [73, 69, 78, 68]
            ++ be32 (crc [73, 69, 78, 68] % 4294967296)) ∧
    (pngRaw bgra width height).getD (y * (3 * width + 1)) 1 = 0 ∧
    (pngRaw bgra width height).getD (y * (3 * width + 1) + (1 + (3 * x + 0))) 0 =
      bgra.getD (y * width * 4 + x * 4 + 2) 0 ∧
    (pngRaw bgra width height).getD (y * (3 * width + 1) + (1 + (3 * x + 1))) 0 =
      bgra.getD (y * width * 4 + x * 4 + 1) 0 ∧
    (pngRaw bgra width height).getD (y * (3 * width + 1) + (1 + (3 * x + 2))) 0 =
      bgra.getD (y * width * 4 + x * 4) 0 := by
  refine ⟨?_, pngRaw_filter_byte bgra width height y hy, ?_, ?_, ?_⟩
  · show pngSignature ++ pngChunk crc [73, 72, 68, 82] (ihdrData width height)
        ++ pngChunk crc [73, 68, 65, 84] (compress (pngRaw bgra width height))
        ++ pngChunk crc [73, 69, 78, 68] [] = _
    unfold pngSignature pngChunk
    simp
  · exact pngRaw_pixel bgra width height y x 0 hy hx (by omega)
  · exact pngRaw_pixel bgra width height y x 1 hy hx (by omega)
  · exact pngRaw_pixel bgra width height y x 2 hy hx (by omega)

theorem encode_png_structure_witness :
    (0 : ℕ) < 1 ∧
    (pngRaw [9, 8, 7, 6] 1 1).getD (0 * (3 * 1 + 1)) 1 = 0 ∧
    (pngRaw [9, 8, 7, 6] 1 1).getD (0 * (3 * 1 + 1) + (1 + (3 * 0 + 0))) 0 =
      [9, 8, 7, 6].getD (0 * 1 * 4 + 0 * 4 + 2) 0 :=
  ⟨by decide,
    (encode_png_structure id (fun _ => 0) [9, 8, 7, 6] 1 1 0 0 (by decide) (by decide)).2.1,
    (encode_png_structure id (fun _ => 0) [9, 8, 7, 6] 1 1 0 0 (by decide) (by decide)).2.2.1⟩
